import Mathlib

/-!
# IntelliGrid server core: shallow embedding and verification

This file embeds the algorithmic core of the IntelliGrid serverless handler
(`src/supabase/functions/server/index.tsx`) in Lean 4 and proves the frozen
claims about it:

* the monthly bill calculation (`calculate-bill` handler),
* the heuristic tip ladder (`energy-tips` handler),
* the 7-day ordinary-least-squares usage forecast (`predict-usage` handler).

Numeric values (JavaScript `number`) are embedded as rationals `ℚ`, so
arithmetic is exact real arithmetic; calendar dates are embedded as
year/month/day triples ordered the way `new Date(isoDate).getTime()` orders
valid day-granularity ISO dates (lexicographically by year, month, day).
JavaScript's stable `Array.prototype.sort` is embedded as `List.insertionSort`,
which is a stable sort.  JSON payloads whose key names matter to the claims
are embedded as association lists from key strings to a small JSON value type.
-/

/-- A calendar date at day granularity, as carried by a stored entry's `date`
field (an ISO `YYYY-MM-DD` string in the source). -/
structure Date where
  year : ℤ
  month : ℤ
  day : ℤ
deriving DecidableEq

/-- A single linear key that orders valid calendar dates (month 1..12,
day 1..31) the same way `new Date(s).getTime()` orders them:
lexicographically by year, then month, then day. -/
def Date.key (d : Date) : ℤ :=
  d.year * 10000 + d.month * 100 + d.day

/-- One stored usage record for a user, as written by the `energy-usage`
handler: a date, a kWh amount, and an appliance category (defaulted to
`"General"` at write time when absent). -/
structure UsageEntry where
  date : Date
  usage : ℚ
  appliance : String
deriving DecidableEq

/-- `entries.reduce((sum, entry) => sum + entry.usage, 0)` — the running-sum
reduce used by the `calculate-bill`, `energy-tips` and `chat` handlers. -/
def totalUsage (entries : List UsageEntry) : ℚ :=
  entries.foldl (fun sum entry => sum + entry.usage) 0

/-- `totalUsage / Math.max(usageData.length, 1)` from the `energy-tips`
handler. -/
def avgDailyUsage (entries : List UsageEntry) : ℚ :=
  totalUsage entries / max (entries.length : ℚ) 1

/-- The bill object built by the `calculate-bill` handler. -/
structure Bill where
  month : ℤ
  year : ℤ
  totalUsage : ℚ
  ratePerKwh : ℚ
  estimatedCost : ℚ
  entriesCount : ℕ
deriving DecidableEq

/-- Outcome of the bill computation: either a bill payload or an error
response.  The handler's only error paths are authentication and transport
failures outside this core; the computation itself has no error branch. -/
inductive BillResponse where
  | ok (bill : Bill)
  | error (msg : String)
deriving DecidableEq

/-- The `calculate-bill` handler body: filter the entries whose parsed date
has `getMonth() === month - 1` (zero-based months) and
`getFullYear() === year`, sum their `usage`, and price at `ratePerKwh`.
The source performs no validation of `month`, `year` or `ratePerKwh`. -/
def calculateBill (entries : List UsageEntry) (month year : ℤ) (ratePerKwh : ℚ) :
    BillResponse :=
  let monthlyData := entries.filter fun entry =>
    entry.date.month - 1 == month - 1 && entry.date.year == year
  BillResponse.ok
    { month := month
      year := year
      totalUsage := totalUsage monthlyData
      ratePerKwh := ratePerKwh
      estimatedCost := totalUsage monthlyData * ratePerKwh
      entriesCount := monthlyData.length }

/-! ## Tip engine (`energy-tips` handler) -/

/-- Tip text pushed when `avgDailyUsage > 30`. -/
def ledTip : String :=
  "Your daily usage is quite high. Consider switching to LED bulbs to reduce consumption by up to 80%."

/-- Second tip pushed when `avgDailyUsage > 30`. -/
def unplugTip : String :=
  "Unplug electronics when not in use to avoid phantom power drain."

/-- Tip pushed when `avgDailyUsage > 50`. -/
def starTip : String :=
  "Consider upgrading to ENERGY STAR certified appliances for significant savings."

/-- Second tip pushed when `avgDailyUsage > 50`. -/
def thermostatTip : String :=
  "Set your thermostat 2-3 degrees higher in summer and lower in winter."

/-- Tip pushed when the dominant appliance is `HVAC`. -/
def hvacTip : String :=
  "HVAC is your biggest energy consumer. Regular maintenance can improve efficiency by 15%."

/-- Tip pushed when the dominant appliance is `Water Heater`. -/
def waterHeaterTip : String :=
  "Lower your water heater temperature to 120°F to save energy without sacrificing comfort."

/-- First fallback tip pushed when no other tip fired. -/
def solarTip : String :=
  "Great job maintaining low energy usage! Consider solar panels for even greater savings."

/-- Second fallback tip pushed when no other tip fired. -/
def powerStripTip : String :=
  "Smart power strips can help eliminate standby power consumption."

/-- `acc[entry.appliance] = (acc[entry.appliance] || 0) + entry.usage` on a
JavaScript object: an existing key keeps its position and accumulates; a new
key is appended at the end (JavaScript string-key insertion order). -/
def addUsage (m : List (String × ℚ)) (k : String) (u : ℚ) : List (String × ℚ) :=
  match m with
  | [] => [(k, u)]
  | (k', v) :: rest =>
    if k' = k then (k', v + u) :: rest else (k', v) :: addUsage rest k u

/-- The `applianceUsage` reduce from the `energy-tips` handler: a map from
appliance category to its summed usage, in first-insertion key order. -/
def applianceUsage (entries : List UsageEntry) : List (String × ℚ) :=
  entries.foldl (fun acc entry => addUsage acc entry.appliance entry.usage) []

/-- JavaScript `applianceUsage[a] > applianceUsage[b]` where a missing key
reads as `undefined`: any comparison involving `undefined` is false. -/
def optGt : Option ℚ → Option ℚ → Bool
  | some x, some y => decide (y < x)
  | _, _ => false

/-- The body of the key reduce:
`(a, b) => applianceUsage[a] > applianceUsage[b] ? a : b`. -/
def topStep (m : List (String × ℚ)) (a b : String) : String :=
  if optGt (m.lookup a) (m.lookup b) then a else b

/-- `Object.keys(applianceUsage).reduce((a, b) => applianceUsage[a] >
applianceUsage[b] ? a : b, 'General')` from the `energy-tips` handler. -/
def topAppliance (entries : List UsageEntry) : String :=
  let m := applianceUsage entries
  (m.map Prod.fst).foldl (topStep m) "General"

/-- The `energy-tips` handler body: the threshold ladder, then the
dominant-appliance tip, then the two fallback tips when nothing fired. -/
def energyTips (entries : List UsageEntry) : List String :=
  let avg := avgDailyUsage entries
  let tips1 : List String := if avg > 30 then [ledTip, unplugTip] else []
  let tips2 := tips1 ++ (if avg > 50 then [starTip, thermostatTip] else [])
  let top := topAppliance entries
  let tips3 := tips2 ++
    (if top = "HVAC" then [hvacTip]
     else if top = "Water Heater" then [waterHeaterTip] else [])
  if tips3.length = 0 then tips3 ++ [solarTip, powerStripTip] else tips3

/-! ## Forecaster (`predict-usage` handler) -/

/-- The comparator `(a, b) => new Date(a.date).getTime() - new
Date(b.date).getTime()` as a `≤` relation on entries. -/
def entryLe (a b : UsageEntry) : Prop := a.date.key ≤ b.date.key

instance : DecidableRel entryLe := fun a b =>
  inferInstanceAs (Decidable (a.date.key ≤ b.date.key))

instance : IsTotal UsageEntry entryLe := ⟨fun a b => le_total a.date.key b.date.key⟩

instance : IsTrans UsageEntry entryLe := ⟨fun _ _ _ => le_trans⟩

/-- `usageData.sort(byDateAscending)` — a stable ascending sort by date. -/
def sortByDate (entries : List UsageEntry) : List UsageEntry :=
  List.insertionSort entryLe entries

/-- `usageData.sort(byDateAscending).slice(-30)`: the sorted entries, keeping
only the last 30 (all of them when there are at most 30). -/
def prepared (entries : List UsageEntry) : List UsageEntry :=
  let sorted := sortByDate entries
  sorted.drop (sorted.length - 30)

/-- The four accumulators of the regression `forEach` loop. -/
structure RegSums where
  sumX : ℚ
  sumY : ℚ
  sumXY : ℚ
  sumXX : ℚ
deriving DecidableEq

/-- One iteration of the `forEach` body: for the index-value pair `p`, add
`x`, `y`, `x*y` and `x*x` to the running sums. -/
def regStep (s : RegSums) (p : ℕ × ℚ) : RegSums :=
  { sumX := s.sumX + (p.1 : ℚ)
    sumY := s.sumY + p.2
    sumXY := s.sumXY + (p.1 : ℚ) * p.2
    sumXX := s.sumXX + (p.1 : ℚ) * (p.1 : ℚ) }

/-- The `sortedData.forEach((entry, index) => ...)` accumulation over the
index-enumerated usage values. -/
def regSums (ys : List ℚ) : RegSums :=
  ys.enum.foldl regStep ⟨0, 0, 0, 0⟩

/-- `slope = (n * sumXY - sumX * sumY) / (n * sumXX - sumX * sumX)` over the
prepared usage sequence.  Division is rational division (total; the
denominator is proved strictly positive for `n ≥ 2` below). -/
def slopeOf (ys : List ℚ) : ℚ :=
  let n : ℚ := ys.length
  let s := regSums ys
  (n * s.sumXY - s.sumX * s.sumY) / (n * s.sumXX - s.sumX * s.sumX)

/-- `intercept = (sumY - slope * sumX) / n`. -/
def interceptOf (ys : List ℚ) : ℚ :=
  let n : ℚ := ys.length
  let s := regSums ys
  (s.sumY - slopeOf ys * s.sumX) / n

/-- `Math.round(q * 100) / 100`: rounding to 2 decimal places.  JavaScript
`Math.round` rounds half toward positive infinity, i.e. `⌊x + 1/2⌋`. -/
def round2 (q : ℚ) : ℚ :=
  (⌊q * 100 + 1 / 2⌋ : ℚ) / 100

/-- The usage values `entry.usage` of the prepared (sorted, truncated)
sequence, in order: the `y` values the regression is fitted over. -/
def preparedUsages (entries : List UsageEntry) : List ℚ :=
  (prepared entries).map fun e => e.usage

/-- The prediction loop: for `i` in `1..7`, pair the date `today + i` (the
wall-clock date at request time plus `i` days, as an epoch day number) with
`max(0, slope * (n + i - 1) + intercept)` rounded to 2 decimals. -/
def predictionsOf (today : ℤ) (ys : List ℚ) : List (ℤ × ℚ) :=
  (List.range 7).map fun j =>
    (today + (j + 1 : ℕ),
      round2 (max 0 (slopeOf ys * ((ys.length : ℚ) + ((j + 1 : ℕ) : ℚ) - 1) +
        interceptOf ys)))

/-- The JSON values appearing in the `predict-usage` response body. -/
inductive JVal where
  | null : JVal
  | str : String → JVal
  | preds : List (ℤ × ℚ) → JVal
deriving DecidableEq

/-- The `predict-usage` handler body as the association list of its JSON
response object.  With fewer than 7 entries it returns
`{ prediction: null, message: ... }` (note the singular key `prediction`);
otherwise `{ predictions: [...] }`. -/
def predictUsage (today : ℤ) (entries : List UsageEntry) : List (String × JVal) :=
  if entries.length < 7 then
    [("prediction", JVal.null),
     ("message", JVal.str "Need at least 7 days of data for prediction")]
  else
    [("predictions", JVal.preds (predictionsOf today (preparedUsages entries)))]

/-! ## Specification-side definitions (for refinement comparisons) -/

/-- The per-category usage sum described by the spec: the sum of `usage`
over the entries of one appliance category. -/
def catSum (entries : List UsageEntry) (k : String) : ℚ :=
  ((entries.filter fun e => e.appliance == k).map fun e => e.usage).sum

/-- Modelled from the claim's words (not from the source): the dominant
appliance as "the category with the largest summed usage, ties broken by
first-encountered in the stable iteration order", defaulting to
`"General"`.  Used only to compare against the source's `topAppliance`. -/
def dominantFirstEncountered (entries : List UsageEntry) : String :=
  let m := applianceUsage entries
  let ks := m.map Prod.fst
  (ks.find? fun k =>
    ks.all fun j => ((m.lookup j).getD 0) ≤ ((m.lookup k).getD 0)).getD "General"

/-! ## Concrete inputs used by the literal test cases of the claims -/

/-- Shorthand for building a concrete entry. -/
def mkE (y m d : ℤ) (u : ℚ) (a : String) : UsageEntry := ⟨⟨y, m, d⟩, u, a⟩

/-- Seven entries on consecutive dates with usage `1,2,3,4,5,6,7`. -/
def exSeven : List UsageEntry :=
  [mkE 2024 1 1 1 "General", mkE 2024 1 2 2 "General", mkE 2024 1 3 3 "General",
   mkE 2024 1 4 4 "General", mkE 2024 1 5 5 "General", mkE 2024 1 6 6 "General",
   mkE 2024 1 7 7 "General"]

/-- A single entry (fewer than 7, triggering the insufficient-data branch). -/
def exOne : List UsageEntry := [mkE 2024 1 1 1 "General"]

/-- The literal bill-calculator test entries: March 2024, usage 10 and 5. -/
def exMarch : List UsageEntry :=
  [mkE 2024 3 1 10 "General", mkE 2024 3 15 5 "General"]

/-- The April 2024 entry that must not affect the March 2024 bill. -/
def exApril : UsageEntry := mkE 2024 4 1 100 "General"

/-- Two appliance categories tied at summed usage 10: `HVAC` is encountered
first, `Water Heater` second. -/
def exTie : List UsageEntry :=
  [mkE 2024 1 1 10 "HVAC", mkE 2024 1 2 10 "Water Heater"]

/-! ## Helper lemmas -/

theorem foldl_add_usage (l : List UsageEntry) (a : ℚ) :
    l.foldl (fun s e => s + e.usage) a = a + (l.map fun e => e.usage).sum := by
  induction l generalizing a with
  | nil => simp
  | cons e l ih => simp [ih, add_assoc]

theorem totalUsage_eq_sum (l : List UsageEntry) :
    totalUsage l = (l.map fun e => e.usage).sum := by
  simpa using foldl_add_usage l 0

/-! ## Claim theorems: bill calculator and aggregator -/

/-- C4: the bill calculation keeps exactly the entries of the requested
month and year, sums their usage, counts them, and prices the total at
`ratePerKwh`; on the literal March-2024 example it yields
`totalUsage = 15`, `estimatedCost = 1.8`, `entriesCount = 2`, and an added
April-2024 entry does not change that bill. -/
theorem c4_bill_calculation (entries : List UsageEntry) (month year : ℤ) (rate : ℚ) :
    (calculateBill entries month year rate = BillResponse.ok
      { month := month
        year := year
        totalUsage :=
          ((entries.filter fun e => e.date.month == month && e.date.year == year).map
            fun e => e.usage).sum
        ratePerKwh := rate
        estimatedCost :=
          ((entries.filter fun e => e.date.month == month && e.date.year == year).map
            fun e => e.usage).sum * rate
        entriesCount :=
          (entries.filter fun e => e.date.month == month && e.date.year == year).length }) ∧
    calculateBill exMarch 3 2024 (12 / 100) =
      BillResponse.ok ⟨3, 2024, 15, 12 / 100, 9 / 5, 2⟩ ∧
    calculateBill (exMarch ++ [exApril]) 3 2024 (12 / 100) =
      BillResponse.ok ⟨3, 2024, 15, 12 / 100, 9 / 5, 2⟩ := by
  refine ⟨?_, by with_unfolding_all rfl, by with_unfolding_all rfl⟩
  have hmy : ∀ e ∈ entries,
      (e.date.month - 1 == month - 1 && e.date.year == year) =
      (e.date.month == month && e.date.year == year) := by
    intro e _
    rw [Bool.eq_iff_iff]
    simp only [Bool.and_eq_true, beq_iff_eq]
    constructor
    · rintro ⟨h1, h2⟩
      exact ⟨by omega, h2⟩
    · rintro ⟨h1, h2⟩
      exact ⟨by omega, h2⟩
  simp only [calculateBill, List.filter_congr hmy, totalUsage_eq_sum]

/-- C8: the aggregated total equals the sum of the usage fields, is invariant
under permutation of the input, and the empty aggregate is total 0, count 0,
average 0. -/
theorem c8_aggregator (l l' : List UsageEntry) (h : l.Perm l') :
    totalUsage l = (l.map fun e => e.usage).sum ∧
    totalUsage l = totalUsage l' ∧
    totalUsage [] = 0 ∧
    ([] : List UsageEntry).length = 0 ∧
    avgDailyUsage [] = 0 := by
  refine ⟨totalUsage_eq_sum l, ?_, rfl, rfl, ?_⟩
  · rw [totalUsage_eq_sum, totalUsage_eq_sum]
    exact (h.map _).sum_eq
  · simp [avgDailyUsage, totalUsage]

/-- Witness for C8 at a concrete two-entry list and its reversal. -/
theorem c8_aggregator_witness : totalUsage exTie = totalUsage exTie.reverse :=
  (c8_aggregator exTie exTie.reverse (List.reverse_perm exTie).symm).2.1

/-- C5 counterexample: a month outside 1–12 and a non-positive rate are both
accepted — the bill calculation returns a normal bill, it is never rejected
with a validation error. -/
theorem c5_counterexample :
    calculateBill exMarch 13 2024 (12 / 100) =
      BillResponse.ok ⟨13, 2024, 0, 12 / 100, 0, 0⟩ ∧
    calculateBill exMarch 3 2024 0 =
      BillResponse.ok ⟨3, 2024, 15, 0, 0, 2⟩ :=
  ⟨by with_unfolding_all rfl, by with_unfolding_all rfl⟩

/-- C5 amended: the bill calculation performs no input validation: it always
returns a normal bill result; a month outside 1–12 (with calendar-valid
entry dates) yields a zero bill over zero entries, and a non-positive rate
is used as-is. -/
theorem c5_amended (entries : List UsageEntry) (month year : ℤ) (rate : ℚ) :
    (∃ b, calculateBill entries month year rate = BillResponse.ok b) ∧
    ((month < 1 ∨ 12 < month) →
      (∀ e ∈ entries, 1 ≤ e.date.month ∧ e.date.month ≤ 12) →
      calculateBill entries month year rate =
        BillResponse.ok ⟨month, year, 0, rate, 0, 0⟩) := by
  refine ⟨⟨_, rfl⟩, ?_⟩
  intro hm hval
  have hf : entries.filter
      (fun e => e.date.month - 1 == month - 1 && e.date.year == year) = [] := by
    rw [List.filter_eq_nil_iff]
    intro e he
    have hb := hval e he
    have h1 : e.date.month - 1 ≠ month - 1 := by omega
    simp [h1]
  simp [calculateBill, hf, totalUsage]

/-- Witness for C5 amended at month 13. -/
theorem c5_amended_witness :
    calculateBill exMarch 13 2024 (12 / 100) =
      BillResponse.ok ⟨13, 2024, 0, 12 / 100, 0, 0⟩ :=
  (c5_amended exMarch 13 2024 (12 / 100)).2 (Or.inr (by decide)) (by decide)

/-! ## Claim theorems: forecaster response shape -/

/-- C3 counterexample: with fewer than 7 entries the response has no
`predictions` key at all; the null marker sits under the singular key
`prediction`. -/
theorem c3_counterexample :
    (predictUsage 0 exOne).lookup "predictions" = none ∧
    (predictUsage 0 exOne).lookup "prediction" = some JVal.null :=
  ⟨by with_unfolding_all rfl, by with_unfolding_all rfl⟩

/-- C3 amended: with fewer than 7 stored entries the forecast returns a
normal result whose payload carries the null marker under the field name
`prediction` (singular — the `predictions` field is absent) together with
the message, and produces no predictions. -/
theorem c3_amended (entries : List UsageEntry) (today : ℤ)
    (h : entries.length < 7) :
    predictUsage today entries =
      [("prediction", JVal.null),
       ("message", JVal.str "Need at least 7 days of data for prediction")] := by
  simp [predictUsage, h]

/-- Witness for C3 amended at a single stored entry. -/
theorem c3_amended_witness :
    predictUsage 0 exOne =
      [("prediction", JVal.null),
       ("message", JVal.str "Need at least 7 days of data for prediction")] :=
  c3_amended exOne 0 (by decide)

/-- C10: with zero stored entries the tip engine still returns a non-empty
result: the average is 0, no threshold rule fires, the dominant appliance
defaults to `General`, and exactly the two generic fallback tips are
returned, solar panels first. -/
theorem c10_empty_entries :
    energyTips [] = [solarTip, powerStripTip] ∧
    avgDailyUsage ([] : List UsageEntry) = 0 ∧
    topAppliance [] = "General" ∧
    (energyTips []).length = 2 :=
  ⟨by with_unfolding_all rfl, by simp [avgDailyUsage, totalUsage],
   by with_unfolding_all rfl, by with_unfolding_all rfl⟩

/-- The tip engine never returns an empty list, for any entry set. -/
theorem energyTips_ne_nil (entries : List UsageEntry) : energyTips entries ≠ [] := by
  have key : ∀ X : List String,
      (if X.length = 0 then X ++ [solarTip, powerStripTip] else X) ≠ [] := by
    intro X
    split
    · simp
    · next hlen =>
        intro hc
        rw [hc] at hlen
        simp at hlen
  exact key _

/-- C7: for a non-empty entry list the tip engine returns a non-empty list,
and when the average is at most 30 and the dominant appliance is neither
`HVAC` nor `Water Heater` it returns exactly the two generic fallback tips
(hence at least 2 tips). -/
theorem c7_tips_fallback (entries : List UsageEntry) (h : entries ≠ []) :
    energyTips entries ≠ [] ∧
    (avgDailyUsage entries ≤ 30 →
      topAppliance entries ≠ "HVAC" →
      topAppliance entries ≠ "Water Heater" →
      energyTips entries = [solarTip, powerStripTip] ∧
        2 ≤ (energyTips entries).length) := by
  refine ⟨energyTips_ne_nil entries, ?_⟩
  intro hle hH hW
  have h30 : ¬ avgDailyUsage entries > 30 := not_lt.mpr hle
  have h50 : ¬ avgDailyUsage entries > 50 := not_lt.mpr (hle.trans (by norm_num))
  have heq : energyTips entries = [solarTip, powerStripTip] := by
    simp [energyTips, h30, h50, hH, hW]
  exact ⟨heq, by simp [heq]⟩

/-- Witness for C7 at the concrete low-usage two-entry tie list. -/
theorem c7_tips_fallback_witness : energyTips exOne = [solarTip, powerStripTip] :=
  ((c7_tips_fallback exOne (by decide)).2 (by norm_num [avgDailyUsage, totalUsage, exOne, mkE])
    (by with_unfolding_all decide) (by with_unfolding_all decide)).1

/-! ## Regression sums: closed forms -/

theorem foldl_regStep_enumFrom (k : ℕ) (ys : List ℚ) (s : RegSums) :
    (List.enumFrom k ys).foldl regStep s =
      { sumX := s.sumX + ∑ i ∈ Finset.range ys.length, ((k : ℚ) + i)
        sumY := s.sumY + ∑ i ∈ Finset.range ys.length, ys.getD i 0
        sumXY := s.sumXY + ∑ i ∈ Finset.range ys.length, ((k : ℚ) + i) * ys.getD i 0
        sumXX := s.sumXX + ∑ i ∈ Finset.range ys.length,
          ((k : ℚ) + i) * ((k : ℚ) + i) } := by
  induction ys using List.reverseRecOn with
  | nil => simp
  | append_singleton ys a ih =>
    rw [List.enumFrom_append, List.foldl_append, ih]
    have henum : List.enumFrom (k + ys.length) [a] = [(k + ys.length, a)] := rfl
    rw [henum]
    have hg1 : (∑ i ∈ Finset.range ys.length, (ys ++ [a]).getD i 0) =
        ∑ i ∈ Finset.range ys.length, ys.getD i 0 :=
      Finset.sum_congr rfl fun i hi => by
        rw [List.getD_append ys [a] 0 i (Finset.mem_range.mp hi)]
    have hg2 : (∑ i ∈ Finset.range ys.length, ((k : ℚ) + i) * (ys ++ [a]).getD i 0) =
        ∑ i ∈ Finset.range ys.length, ((k : ℚ) + i) * ys.getD i 0 :=
      Finset.sum_congr rfl fun i hi => by
        rw [List.getD_append ys [a] 0 i (Finset.mem_range.mp hi)]
    have hlast : (ys ++ [a]).getD ys.length 0 = a := by
      rw [List.getD_append_right ys [a] 0 ys.length le_rfl]
      simp
    simp only [List.foldl_cons, List.foldl_nil, regStep, List.length_append,
      List.length_singleton, Finset.sum_range_succ, hg1, hg2, hlast]
    simp only [RegSums.mk.injEq]
    refine ⟨?_, ?_, ?_, ?_⟩ <;> (push_cast; ring)

theorem regSums_eq (ys : List ℚ) :
    regSums ys =
      { sumX := ∑ i ∈ Finset.range ys.length, (i : ℚ)
        sumY := ∑ i ∈ Finset.range ys.length, ys.getD i 0
        sumXY := ∑ i ∈ Finset.range ys.length, (i : ℚ) * ys.getD i 0
        sumXX := ∑ i ∈ Finset.range ys.length, (i : ℚ) * (i : ℚ) } := by
  have h := foldl_regStep_enumFrom 0 ys ⟨0, 0, 0, 0⟩
  simpa using h

theorem slopeOf_formula (ys : List ℚ) :
    slopeOf ys =
      ((ys.length : ℚ) * (∑ i ∈ Finset.range ys.length, (i : ℚ) * ys.getD i 0) -
          (∑ i ∈ Finset.range ys.length, (i : ℚ)) *
            (∑ i ∈ Finset.range ys.length, ys.getD i 0)) /
        ((ys.length : ℚ) * (∑ i ∈ Finset.range ys.length, (i : ℚ) ^ 2) -
          (∑ i ∈ Finset.range ys.length, (i : ℚ)) ^ 2) := by
  have hxx : (∑ i ∈ Finset.range ys.length, (i : ℚ) ^ 2) =
      ∑ i ∈ Finset.range ys.length, (i : ℚ) * (i : ℚ) :=
    Finset.sum_congr rfl fun i _ => pow_two (i : ℚ)
  rw [hxx, pow_two]
  simp only [slopeOf, regSums_eq]

theorem interceptOf_formula (ys : List ℚ) :
    interceptOf ys =
      ((∑ i ∈ Finset.range ys.length, ys.getD i 0) -
          slopeOf ys * (∑ i ∈ Finset.range ys.length, (i : ℚ))) / (ys.length : ℚ) := by
  simp only [interceptOf, regSums_eq]

/-! ## The prepared sequence: sorted, a suffix, of bounded length -/

theorem sortByDate_sorted (entries : List UsageEntry) :
    List.Sorted entryLe (sortByDate entries) :=
  List.sorted_insertionSort entryLe entries

theorem sortByDate_perm (entries : List UsageEntry) :
    (sortByDate entries).Perm entries :=
  List.perm_insertionSort entryLe entries

theorem prepared_suffix (entries : List UsageEntry) :
    (prepared entries).IsSuffix (sortByDate entries) :=
  ⟨(sortByDate entries).take ((sortByDate entries).length - 30),
    List.take_append_drop _ _⟩

theorem prepared_length (entries : List UsageEntry) :
    (prepared entries).length = min 30 entries.length := by
  have h : (sortByDate entries).length = entries.length :=
    List.length_insertionSort entryLe entries
  simp only [prepared, List.length_drop, h]
  omega

theorem prepared_sorted (entries : List UsageEntry) :
    List.Sorted entryLe (prepared entries) :=
  List.Pairwise.sublist (List.drop_sublist _ _) (sortByDate_sorted entries)

/-- Rounding to two decimals preserves non-negativity. -/
theorem round2_nonneg (q : ℚ) (hq : 0 ≤ q) : 0 ≤ round2 q := by
  unfold round2
  apply div_nonneg _ (by norm_num)
  have h : (0 : ℤ) ≤ ⌊q * 100 + 1 / 2⌋ := Int.le_floor.mpr (by push_cast; nlinarith)
  exact_mod_cast h

/-- C1: the forecaster sorts ascending by date, keeps at most the last 30 of
that order, and fits ordinary least squares of usage against rank index with
the stated slope and intercept formulas; on 7 entries of usage `1..7` it
computes slope 1, intercept 1 and day-1 prediction 8. -/
theorem c1_forecaster_fit (entries : List UsageEntry) (h : 7 ≤ entries.length) :
    List.Sorted entryLe (sortByDate entries) ∧
    (sortByDate entries).Perm entries ∧
    (prepared entries).IsSuffix (sortByDate entries) ∧
    (prepared entries).length = min 30 entries.length ∧
    List.Sorted entryLe (prepared entries) ∧
    (slopeOf (preparedUsages entries) =
      (((preparedUsages entries).length : ℚ) *
          (∑ i ∈ Finset.range (preparedUsages entries).length,
            (i : ℚ) * (preparedUsages entries).getD i 0) -
        (∑ i ∈ Finset.range (preparedUsages entries).length, (i : ℚ)) *
          (∑ i ∈ Finset.range (preparedUsages entries).length,
            (preparedUsages entries).getD i 0)) /
      (((preparedUsages entries).length : ℚ) *
          (∑ i ∈ Finset.range (preparedUsages entries).length, (i : ℚ) ^ 2) -
        (∑ i ∈ Finset.range (preparedUsages entries).length, (i : ℚ)) ^ 2)) ∧
    (interceptOf (preparedUsages entries) =
      ((∑ i ∈ Finset.range (preparedUsages entries).length,
          (preparedUsages entries).getD i 0) -
        slopeOf (preparedUsages entries) *
          (∑ i ∈ Finset.range (preparedUsages entries).length, (i : ℚ))) /
        ((preparedUsages entries).length : ℚ)) ∧
    slopeOf (preparedUsages exSeven) = 1 ∧
    interceptOf (preparedUsages exSeven) = 1 ∧
    ((predictionsOf 0 (preparedUsages exSeven)).getD 0 (0, 0)).2 = 8 :=
  ⟨sortByDate_sorted entries, sortByDate_perm entries, prepared_suffix entries,
   prepared_length entries, prepared_sorted entries,
   slopeOf_formula (preparedUsages entries), interceptOf_formula (preparedUsages entries),
   by with_unfolding_all rfl, by with_unfolding_all rfl, by with_unfolding_all rfl⟩

/-- Witness for C1 at the concrete 7-entry list. -/
theorem c1_forecaster_fit_witness :
    slopeOf (preparedUsages exSeven) = 1 ∧ interceptOf (preparedUsages exSeven) = 1 :=
  ⟨(c1_forecaster_fit exSeven (by decide)).2.2.2.2.2.2.2.1,
   (c1_forecaster_fit exSeven (by decide)).2.2.2.2.2.2.2.2.1⟩

/-- C2: with at least 7 entries the forecaster returns exactly 7 prediction
pairs; the i-th pair is the date `today + i` with
`max(0, slope * (n + i - 1) + intercept)` rounded to 2 decimals, and no
predicted value is negative. -/
theorem c2_projection (entries : List UsageEntry) (today : ℤ)
    (h : 7 ≤ entries.length) :
    predictUsage today entries =
      [("predictions", JVal.preds (predictionsOf today (preparedUsages entries)))] ∧
    (predictionsOf today (preparedUsages entries)).length = 7 ∧
    (∀ i : ℕ, 1 ≤ i → i ≤ 7 →
      (predictionsOf today (preparedUsages entries)).getD (i - 1) (0, 0) =
        (today + (i : ℤ),
          round2 (max 0 (slopeOf (preparedUsages entries) *
            (((preparedUsages entries).length : ℚ) + (i : ℚ) - 1) +
            interceptOf (preparedUsages entries))))) ∧
    (∀ p ∈ predictionsOf today (preparedUsages entries), 0 ≤ p.2) := by
  refine ⟨?_, by simp [predictionsOf], ?_, ?_⟩
  · have hn : ¬ entries.length < 7 := not_lt.mpr h
    simp [predictUsage, hn]
  · intro i h1 h7
    have hlen : (predictionsOf today (preparedUsages entries)).length = 7 := by
      simp [predictionsOf]
    rw [List.getD_eq_getElem _ _ (by rw [hlen]; omega)]
    simp only [predictionsOf, List.getElem_map, List.getElem_range]
    have hi : i - 1 + 1 = i := by omega
    rw [hi]
  · intro p hp
    simp only [predictionsOf, List.mem_map] at hp
    obtain ⟨j, _, rfl⟩ := hp
    exact round2_nonneg _ (le_max_left 0 _)

/-- Witness for C2 at the concrete 7-entry list. -/
theorem c2_projection_witness :
    (predictionsOf 0 (preparedUsages exSeven)).length = 7 ∧
    (predictionsOf 0 (preparedUsages exSeven)).getD 0 (0, 0) =
      (1, round2 (max 0 (slopeOf (preparedUsages exSeven) *
        (((preparedUsages exSeven).length : ℚ) + 1 - 1) +
        interceptOf (preparedUsages exSeven)))) :=
  ⟨(c2_projection exSeven 0 (by decide)).2.1,
   (c2_projection exSeven 0 (by decide)).2.2.1 1 le_rfl (by norm_num)⟩

/-! ## The regression denominator -/

theorem sum_range_cast_id (n : ℕ) :
    (∑ i ∈ Finset.range n, (i : ℚ)) = n * (n - 1) / 2 := by
  induction n with
  | zero => simp
  | succ n ih =>
    rw [Finset.sum_range_succ, ih]
    push_cast
    ring

theorem sum_range_cast_mul_self (n : ℕ) :
    (∑ i ∈ Finset.range n, (i : ℚ) * i) = n * (n - 1) * (2 * n - 1) / 6 := by
  induction n with
  | zero => simp
  | succ n ih =>
    rw [Finset.sum_range_succ, ih]
    push_cast
    ring

/-- The denominator `n * Σx² - (Σx)²` over `x = 0..n-1` is strictly positive
as soon as `n ≥ 2`. -/
theorem den_pos (n : ℕ) (hn : 2 ≤ n) :
    0 < (n : ℚ) * (∑ i ∈ Finset.range n, (i : ℚ) * i) -
        (∑ i ∈ Finset.range n, (i : ℚ)) * (∑ i ∈ Finset.range n, (i : ℚ)) := by
  rw [sum_range_cast_id, sum_range_cast_mul_self]
  have h : (2 : ℚ) ≤ n := by exact_mod_cast hn
  have key : (n : ℚ) * ((n : ℚ) * ((n : ℚ) - 1) * (2 * (n : ℚ) - 1) / 6) -
      (n : ℚ) * ((n : ℚ) - 1) / 2 * ((n : ℚ) * ((n : ℚ) - 1) / 2) =
      (n : ℚ) ^ 2 * ((n : ℚ) ^ 2 - 1) / 12 := by ring
  rw [key]
  apply div_pos _ (by norm_num)
  apply mul_pos (by nlinarith) (by nlinarith)

/-- C9: under the precondition of at least 7 entries the code's regression
denominator `n * sumXX - sumX * sumX` is strictly positive, so the slope
division is never a division by zero. -/
theorem c9_denominator_pos (entries : List UsageEntry) (h : 7 ≤ entries.length) :
    0 < ((preparedUsages entries).length : ℚ) *
          (regSums (preparedUsages entries)).sumXX -
        (regSums (preparedUsages entries)).sumX *
          (regSums (preparedUsages entries)).sumX := by
  have hlen : (preparedUsages entries).length = min 30 entries.length := by
    rw [preparedUsages, List.length_map, prepared_length]
  have h2 : 2 ≤ (preparedUsages entries).length := by omega
  rw [regSums_eq]
  exact den_pos (preparedUsages entries).length h2

/-- Witness for C9 at the concrete 7-entry list. -/
theorem c9_denominator_pos_witness :
    0 < ((preparedUsages exSeven).length : ℚ) *
          (regSums (preparedUsages exSeven)).sumXX -
        (regSums (preparedUsages exSeven)).sumX *
          (regSums (preparedUsages exSeven)).sumX :=
  c9_denominator_pos exSeven (by decide)

/-! ## Dominant-appliance fold: lookup and maximality lemmas -/

theorem optGt_irrefl (o : Option ℚ) : optGt o o = false := by
  cases o with
  | none => rfl
  | some x => simp [optGt]

theorem optGt_some_true {x y : ℚ} (h : y < x) : optGt (some x) (some y) = true := by
  simp [optGt, h]

theorem optGt_some_false {x y : ℚ} (h : x ≤ y) : optGt (some x) (some y) = false := by
  simp [optGt, not_lt.mpr h]

theorem lt_of_optGt_some {o : Option ℚ} {y : ℚ} (h : optGt o (some y) = true) :
    ∃ x, o = some x ∧ y < x := by
  cases o with
  | none => simp [optGt] at h
  | some x => exact ⟨x, rfl, by simpa [optGt] using h⟩

theorem le_of_optGt_false {x y : ℚ} (h : optGt (some x) (some y) = false) : x ≤ y := by
  simpa [optGt, not_lt] using h

theorem lookup_isSome_of_mem_keys {m : List (String × ℚ)} {k : String}
    (h : k ∈ m.map Prod.fst) : (m.lookup k).isSome := by
  induction m with
  | nil => simp at h
  | cons p m ih =>
    obtain ⟨k', v⟩ := p
    by_cases hk : k = k'
    · simp [List.lookup_cons, hk]
    · have h1 : k ∈ m.map Prod.fst := by
        simp only [List.map_cons, List.mem_cons] at h
        exact h.resolve_left hk
      simp [List.lookup_cons, beq_eq_false_iff_ne.mpr hk, ih h1]

theorem mem_keys_of_lookup_isSome {m : List (String × ℚ)} {k : String}
    (h : (m.lookup k).isSome) : k ∈ m.map Prod.fst := by
  induction m with
  | nil => simp [List.lookup] at h
  | cons p m ih =>
    obtain ⟨k', v⟩ := p
    by_cases hk : k = k'
    · simp [hk]
    · simp only [List.lookup_cons, beq_eq_false_iff_ne.mpr hk] at h
      simp only [List.map_cons, List.mem_cons]
      exact Or.inr (ih h)

theorem lookup_addUsage (m : List (String × ℚ)) (k : String) (u : ℚ) (j : String) :
    (addUsage m k u).lookup j =
      if j = k then some ((m.lookup k).getD 0 + u) else m.lookup j := by
  induction m with
  | nil =>
    by_cases hj : j = k
    · simp [addUsage, List.lookup_cons, hj]
    · simp [addUsage, List.lookup_cons, hj, beq_eq_false_iff_ne.mpr hj, List.lookup]
  | cons p m ih =>
    obtain ⟨k', v⟩ := p
    by_cases hk : k' = k
    · subst hk
      by_cases hj : j = k'
      · subst hj
        simp [addUsage, List.lookup_cons]
      · simp [addUsage, List.lookup_cons, hj, beq_eq_false_iff_ne.mpr hj]
    · have hkk : k ≠ k' := fun hh => hk hh.symm
      by_cases hj : j = k'
      · have hjk : j ≠ k := fun hh => hk (hj.symm.trans hh)
        simp [addUsage, hk, List.lookup_cons, hj, hjk]
      · simp only [addUsage, if_neg hk, List.lookup_cons,
          beq_eq_false_iff_ne.mpr hj, beq_eq_false_iff_ne.mpr hkk, ih]

theorem catSum_cons (e : UsageEntry) (l : List UsageEntry) (j : String) :
    catSum (e :: l) j = (if e.appliance = j then e.usage else 0) + catSum l j := by
  simp only [catSum, List.filter_cons]
  by_cases h : e.appliance = j
  · simp [h]
  · simp [h, beq_eq_false_iff_ne.mpr h]

theorem lookup_foldl_addUsage (l : List UsageEntry) :
    ∀ (m : List (String × ℚ)) (j : String),
      (l.foldl (fun acc e => addUsage acc e.appliance e.usage) m).lookup j =
        match m.lookup j with
        | some v => some (v + catSum l j)
        | none =>
          if l.any (fun e => e.appliance == j) then some (catSum l j) else none := by
  induction l with
  | nil =>
    intro m j
    cases h : m.lookup j <;> simp [catSum, h]
  | cons e l ih =>
    intro m j
    rw [List.foldl_cons, ih, lookup_addUsage]
    simp only [catSum_cons]
    by_cases hj : j = e.appliance
    · rw [if_pos hj]
      have hz : (if e.appliance = j then e.usage else 0) = e.usage := if_pos hj.symm
      simp only [hz]
      have ha : ((e :: l).any fun x => x.appliance == j) = true := by
        simp [List.any_cons, hj]
      cases h : m.lookup j with
      | some v =>
        have h2 : m.lookup e.appliance = some v := hj ▸ h
        simp [h2, h, add_assoc]
      | none =>
        have h2 : m.lookup e.appliance = none := hj ▸ h
        simp [h2, h, ha, zero_add]
    · rw [if_neg hj]
      have hz : (if e.appliance = j then e.usage else 0) = 0 := if_neg fun hh => hj hh.symm
      simp only [hz, zero_add]
      have hb : (e.appliance == j) = false :=
        beq_eq_false_iff_ne.mpr fun hh => hj hh.symm
      have hany : ((e :: l).any fun x => x.appliance == j) =
          (l.any fun x => x.appliance == j) := by
        simp [List.any_cons, hb]
      rw [hany]

theorem lookup_applianceUsage (entries : List UsageEntry) (j : String)
    (h : j ∈ (applianceUsage entries).map Prod.fst) :
    (applianceUsage entries).lookup j = some (catSum entries j) := by
  have hs := lookup_isSome_of_mem_keys h
  rw [applianceUsage, lookup_foldl_addUsage] at hs ⊢
  by_cases ha : entries.any (fun e => e.appliance == j)
  · simp [List.lookup, ha]
  · rw [List.lookup] at hs
    simp [ha] at hs


theorem lt_of_optGt_true {x y : ℚ} (h : optGt (some x) (some y) = true) : y < x := by
  simpa [optGt] using h

/-- Characterization of the key-reduce fold: either the accumulator strictly
beats every key (and survives), or the result is a key of the list, weakly
maximal among all keys, strictly above every key after its occurrence, and
at least as large as the accumulator. -/
theorem foldl_topStep_spec (m : List (String × ℚ)) :
    ∀ (ks : List String) (a : String), (∀ k ∈ ks, (m.lookup k).isSome) →
      (ks.foldl (topStep m) a = a ∧
        ∀ b ∈ ks, optGt (m.lookup a) (m.lookup b) = true) ∨
      (∃ pre post, ks = pre ++ ks.foldl (topStep m) a :: post ∧
        (∀ b ∈ ks, optGt (m.lookup b) (m.lookup (ks.foldl (topStep m) a)) = false) ∧
        (∀ b ∈ post, optGt (m.lookup (ks.foldl (topStep m) a)) (m.lookup b) = true) ∧
        optGt (m.lookup a) (m.lookup (ks.foldl (topStep m) a)) = false) := by
  intro ks
  induction ks with
  | nil => exact fun a _ => Or.inl ⟨rfl, by simp⟩
  | cons b ks ih =>
    intro a hsome
    have hbSome : (m.lookup b).isSome := hsome b (List.mem_cons_self b ks)
    have hksSome : ∀ k ∈ ks, (m.lookup k).isSome := fun k hk =>
      hsome k (List.mem_cons_of_mem b hk)
    obtain ⟨vb, hvb⟩ := Option.isSome_iff_exists.mp hbSome
    rw [List.foldl_cons]
    by_cases hab : optGt (m.lookup a) (m.lookup b) = true
    · have hstep : topStep m a b = a := if_pos hab
      rw [hstep]
      obtain ⟨va, hva, hba⟩ := lt_of_optGt_some (hvb ▸ hab)
      rcases ih a hksSome with ⟨heq, hall⟩ | ⟨pre, post, hsplit, hle, hpost, hacc⟩
      · left
        refine ⟨heq, fun c hc => ?_⟩
        rcases List.mem_cons.mp hc with rfl | hc
        · exact hab
        · exact hall c hc
      · right
        set r := ks.foldl (topStep m) a with hr
        have hrks : r ∈ ks := by
          rw [hsplit]
          exact List.mem_append_right _ (List.mem_cons_self _ _)
        obtain ⟨vr, hvr⟩ := Option.isSome_iff_exists.mp (hksSome _ hrks)
        have har : va ≤ vr := by
          have hx := hacc
          rw [hva, hvr] at hx
          exact le_of_optGt_false hx
        refine ⟨b :: pre, post, ?_, ?_, hpost, hacc⟩
        · rw [List.cons_append, ← hsplit]
        · intro c hc
          rcases List.mem_cons.mp hc with rfl | hc
          · rw [hvb, hvr]
            exact optGt_some_false ((le_of_lt hba).trans har)
          · exact hle c hc
    · have habf : optGt (m.lookup a) (m.lookup b) = false :=
        Bool.eq_false_iff.mpr hab
      have hstep : topStep m a b = b := if_neg hab
      rw [hstep]
      rcases ih b hksSome with ⟨heq, hall⟩ | ⟨pre, post, hsplit, hle, hpost, hacc⟩
      · right
        rw [heq]
        refine ⟨[], ks, by rw [List.nil_append], ?_, hall, habf⟩
        intro c hc
        rcases List.mem_cons.mp hc with rfl | hc
        · exact optGt_irrefl _
        · obtain ⟨vc, hvc⟩ := Option.isSome_iff_exists.mp (hksSome c hc)
          have hcb : vc < vb := by
            have hx := hall c hc
            rw [hvb, hvc] at hx
            exact lt_of_optGt_true hx
          rw [hvb, hvc]
          exact optGt_some_false (le_of_lt hcb)
      · right
        set r := ks.foldl (topStep m) b with hr
        have hrks : r ∈ ks := by
          rw [hsplit]
          exact List.mem_append_right _ (List.mem_cons_self _ _)
        obtain ⟨vr, hvr⟩ := Option.isSome_iff_exists.mp (hksSome _ hrks)
        refine ⟨b :: pre, post, ?_, ?_, hpost, ?_⟩
        · rw [List.cons_append, ← hsplit]
        · intro c hc
          rcases List.mem_cons.mp hc with rfl | hc
          · exact hacc
          · exact hle c hc
        · cases hva : m.lookup a with
          | none => simp [optGt]
          | some va =>
            have hav : va ≤ vb := by
              have hx := habf
              rw [hva, hvb] at hx
              exact le_of_optGt_false hx
            have hbr : vb ≤ vr := by
              have hx := hacc
              rw [hvb, hvr] at hx
              exact le_of_optGt_false hx
            rw [hvr]
            exact optGt_some_false (hav.trans hbr)

/-- With no appliance categories at all the reduce returns its initial value
`General`. -/
theorem topAppliance_eq_general (entries : List UsageEntry)
    (h : applianceUsage entries = []) : topAppliance entries = "General" := by
  simp [topAppliance, h]

/-- With at least one category, the dominant appliance is a category whose
per-category usage sum is maximal, and every category listed after it has a
strictly smaller sum: ties are resolved in favour of the last-encountered
category. -/
theorem topAppliance_isLastMax (entries : List UsageEntry)
    (h : applianceUsage entries ≠ []) :
    ∃ pre post,
      (applianceUsage entries).map Prod.fst =
        pre ++ topAppliance entries :: post ∧
      (∀ k ∈ (applianceUsage entries).map Prod.fst,
        catSum entries k ≤ catSum entries (topAppliance entries)) ∧
      (∀ k ∈ post, catSum entries k < catSum entries (topAppliance entries)) := by
  have hsome : ∀ k ∈ (applianceUsage entries).map Prod.fst,
      ((applianceUsage entries).lookup k).isSome :=
    fun k hk => lookup_isSome_of_mem_keys hk
  have htop : topAppliance entries =
      ((applianceUsage entries).map Prod.fst).foldl
        (topStep (applianceUsage entries)) "General" := rfl
  rcases foldl_topStep_spec (applianceUsage entries)
      ((applianceUsage entries).map Prod.fst) "General" hsome with
    ⟨heq, hall⟩ | ⟨pre, post, hsplit, hle, hpost, hacc⟩
  · exfalso
    have hks : (applianceUsage entries).map Prod.fst ≠ [] := by
      intro hm
      exact h (List.map_eq_nil_iff.mp hm)
    obtain ⟨b, hb⟩ := List.exists_mem_of_ne_nil _ hks
    obtain ⟨g, hg, _⟩ := lt_of_optGt_some
      ((Option.isSome_iff_exists.mp (hsome b hb)).choose_spec ▸ hall b hb)
    have hGen : "General" ∈ (applianceUsage entries).map Prod.fst :=
      mem_keys_of_lookup_isSome (by simp [hg])
    have hGG := hall "General" hGen
    rw [hg] at hGG
    simpa [optGt] using hGG
  · rw [htop]
    set ks := (applianceUsage entries).map Prod.fst with hks
    set r := ks.foldl (topStep (applianceUsage entries)) "General" with hr
    have hrks : r ∈ ks := by
      rw [hsplit]
      exact List.mem_append_right _ (List.mem_cons_self _ _)
    have hlr : (applianceUsage entries).lookup r = some (catSum entries r) :=
      lookup_applianceUsage entries r hrks
    refine ⟨pre, post, hsplit, ?_, ?_⟩
    · intro k hk
      have hlk : (applianceUsage entries).lookup k = some (catSum entries k) :=
        lookup_applianceUsage entries k hk
      have hx := hle k hk
      rw [hlk, hlr] at hx
      exact le_of_optGt_false hx
    · intro k hk
      have hkks : k ∈ ks := by
        rw [hsplit]
        exact List.mem_append_right _ (List.mem_cons_of_mem _ hk)
      have hlk : (applianceUsage entries).lookup k = some (catSum entries k) :=
        lookup_applianceUsage entries k hkks
      have hx := hpost k hk
      rw [hlk, hlr] at hx
      exact lt_of_optGt_true hx

/-- C6 counterexample: with two categories tied at summed usage 10 (`HVAC`
first, `Water Heater` second), the code picks the last-encountered category,
not the first-encountered one the claim describes, and emits the
water-heater tip instead of the HVAC tip. -/
theorem c6_counterexample :
    catSum exTie "HVAC" = catSum exTie "Water Heater" ∧
    dominantFirstEncountered exTie = "HVAC" ∧
    topAppliance exTie = "Water Heater" ∧
    energyTips exTie = [waterHeaterTip] ∧
    waterHeaterTip ≠ hvacTip :=
  ⟨by with_unfolding_all rfl, by with_unfolding_all rfl, by with_unfolding_all rfl,
   by with_unfolding_all rfl, by with_unfolding_all decide⟩

/-- C6 amended: the tip engine evaluates the fixed rule ladder in order
(both thresholds are additive), then appends one appliance-specific tip
exactly when the dominant appliance is `HVAC` or `Water Heater`, where the
dominant appliance is a category of maximal summed usage with ties broken by
the LAST-encountered category in the stable insertion order (defaulting to
`General` when no category exists). -/
theorem c6_amended (entries : List UsageEntry) :
    energyTips entries =
      (if avgDailyUsage entries > 30 then [ledTip, unplugTip] else []) ++
        (if avgDailyUsage entries > 50 then [starTip, thermostatTip] else []) ++
        (if topAppliance entries = "HVAC" then [hvacTip]
         else if topAppliance entries = "Water Heater" then [waterHeaterTip]
         else []) ++
        (if ((if avgDailyUsage entries > 30 then [ledTip, unplugTip] else []) ++
              (if avgDailyUsage entries > 50 then [starTip, thermostatTip] else []) ++
              (if topAppliance entries = "HVAC" then [hvacTip]
               else if topAppliance entries = "Water Heater" then [waterHeaterTip]
               else [])).length = 0
         then [solarTip, powerStripTip] else []) ∧
    (applianceUsage entries = [] → topAppliance entries = "General") ∧
    (applianceUsage entries ≠ [] →
      ∃ pre post,
        (applianceUsage entries).map Prod.fst =
          pre ++ topAppliance entries :: post ∧
        (∀ k ∈ (applianceUsage entries).map Prod.fst,
          catSum entries k ≤ catSum entries (topAppliance entries)) ∧
        (∀ k ∈ post, catSum entries k < catSum entries (topAppliance entries))) := by
  refine ⟨?_, topAppliance_eq_general entries, topAppliance_isLastMax entries⟩
  have hgen : ∀ X : List String,
      (if X.length = 0 then X ++ [solarTip, powerStripTip] else X) =
        X ++ (if X.length = 0 then [solarTip, powerStripTip] else []) := by
    intro X
    by_cases h : X.length = 0
    · simp [h]
    · simp [h]
  exact hgen _

/-- Witness for C6 amended at the concrete tied two-category list. -/
theorem c6_amended_witness :
    energyTips exTie = [waterHeaterTip] ∧
    (∃ pre post,
      (applianceUsage exTie).map Prod.fst = pre ++ topAppliance exTie :: post ∧
      (∀ k ∈ (applianceUsage exTie).map Prod.fst,
        catSum exTie k ≤ catSum exTie (topAppliance exTie)) ∧
      (∀ k ∈ post, catSum exTie k < catSum exTie (topAppliance exTie))) :=
  ⟨by rw [(c6_amended exTie).1]; with_unfolding_all rfl,
   (c6_amended exTie).2.2 (by with_unfolding_all decide)⟩
